import Mathlib

/-!
# AI-Study-Buddy: resilient model-call and response-validation pipeline

A shallow embedding of the core pipeline of the AI-Study-Buddy repository:

* the retrying Gemini client `callGeminiAPI` of the serverless `ask`
  endpoint (maxRetries = 3, 429-aware backoff),
* the JSON-array extraction helper `extractJsonArray` (regex
  `\[[\s\S]*\]` followed by `JSON.parse`),
* the numbered-Markdown-list check `isNumberedMarkdownList`,
* the shape-aware wrapper `callGeminiWithRetry` (maxTries = 2) of the
  Express server, together with the ajv schema validators
  `validateFlashcards` / `validateQuiz`, and
* the `/api/ask`, `/api/flashcards` and `/api/quiz` request handlers.

Remote calls are modelled by a script: a list of outcomes, one consumed
per call.  All definitions are executable; theorems at the end of the
file settle the specification claims.
-/

/-! ## Transport layer: the retrying Gemini client

Embedding of `callGeminiAPI` in the serverless `ask` endpoint (the
variant with the retry loop).  One remote `fetch` is modelled by one
`FetchOutcome` consumed from a script.
-/

/-- Outcome of one `fetch` to the generation endpoint.
`ok candidateText` is a 2xx reply whose JSON body parsed; `candidateText`
is `some t` when the guard `data.candidates && data.candidates[0] &&
data.candidates[0].content` passes and `data.candidates[0].content.parts[0].text`
is `t`, and `none` when the guard fails (the code then throws
`Invalid response format from Gemini API`; a body whose `content` exists
but lacks `parts` throws a TypeError, which the same `catch` handles
identically).  `httpError status retryAfter` is a non-2xx reply;
`retryAfter` is the numeric value, in seconds, of the `retry-after`
header when one is present (the code applies `parseInt`).
`networkError` is a rejected `fetch`. -/
inductive FetchOutcome where
  | httpError (status : Nat) (retryAfter : Option Nat)
  | networkError
  | ok (candidateText : Option String)

/-- The error the client raises (the `Error` it throws). -/
inductive GeminiError where
  | apiError (status : Nat)  -- the message Gemini API error: status, body text
  | invalidFormat            -- Invalid response format from Gemini API
  | networkErr               -- a transport-level exception from fetch
  | unknown                  -- Unknown Gemini API error (dead fallback)
deriving DecidableEq

/-- Result of one invocation of the retrying client: what it returned or
raised, how many remote calls it made, and the list of backoff waits (in
milliseconds) it slept before each retry. -/
structure ClientResult where
  result : Except GeminiError String
  calls : Nat
  waits : List Nat

/-- `const maxRetries = 3` in `callGeminiAPI`. -/
def maxRetries : Nat := 3

/-- What a single iteration of the `try` block in `callGeminiAPI` does for
an outcome, at a given value of the `attempt` counter: return the text,
throw an error (to be handled by the `catch` block), or sleep
`retry-after` seconds (times 1000) when present else `2^attempt` seconds
and go round again (the dedicated 429 branch). -/
inductive TryStep where
  | success (text : String)
  | thrown (err : GeminiError)
  | rateLimitWait (waitMs : Nat)

/-- The `try` block of the retry loop in `callGeminiAPI`, per outcome. -/
def tryStep (attempt : Nat) (o : FetchOutcome) : TryStep :=
  match o with
  | FetchOutcome.networkError => TryStep.thrown GeminiError.networkErr
  | FetchOutcome.httpError status retryAfter =>
    if status == 429 && decide (attempt < maxRetries) then
      TryStep.rateLimitWait
        (match retryAfter with
         | some secs => secs * 1000
         | none => 2 ^ attempt * 1000)
    else TryStep.thrown (GeminiError.apiError status)
  | FetchOutcome.ok candidateText =>
    match candidateText with
    | some text => TryStep.success text
    | none => TryStep.thrown GeminiError.invalidFormat

/-- The `while (attempt <= maxRetries)` loop of `callGeminiAPI`, with
`fuel = maxRetries + 1 - attempt` (the number of loop iterations still
permitted); `fuel = 0` is the dead fall-through line
`throw lastError || new Error(...)`.  The `catch` block appears in the
`thrown` branch: record the error as `lastError` and, when attempts
remain, sleep `2^attempt` seconds and retry. -/
def geminiRetryLoop : Nat → Nat → Option GeminiError → List FetchOutcome → ClientResult
  | 0, _, lastError, _ =>
    ⟨Except.error (lastError.getD GeminiError.unknown), 0, []⟩
  | fuel + 1, attempt, lastError, outcomes =>
    let o := outcomes.headD FetchOutcome.networkError
    let rest := outcomes.tail
    match tryStep attempt o with
    | TryStep.success text => ⟨Except.ok text, 1, []⟩
    | TryStep.rateLimitWait waitMs =>
      let r := geminiRetryLoop fuel (attempt + 1) lastError rest
      ⟨r.result, r.calls + 1, waitMs :: r.waits⟩
    | TryStep.thrown err =>
      if attempt < maxRetries then
        let r := geminiRetryLoop fuel (attempt + 1) (some err) rest
        ⟨r.result, r.calls + 1, 2 ^ attempt * 1000 :: r.waits⟩
      else ⟨Except.error err, 1, []⟩

/-- `callGeminiAPI(prompt)` of the serverless `ask` endpoint, run against
a script of fetch outcomes: `attempt` starts at 0 and `lastError` at
null. -/
def callGeminiAPI (outcomes : List FetchOutcome) : ClientResult :=
  geminiRetryLoop (maxRetries + 1) 0 none outcomes

/-- An outcome on which the `try` block does not return: the client
either retries or raises. -/
def isFailure : FetchOutcome → Bool
  | FetchOutcome.ok candidateText => candidateText.isNone
  | _ => true

/-- The error the client raises when this outcome is the one consumed by
the final permitted attempt. -/
def thrownError : FetchOutcome → GeminiError
  | FetchOutcome.networkError => GeminiError.networkErr
  | FetchOutcome.httpError status _ => GeminiError.apiError status
  | FetchOutcome.ok _ => GeminiError.invalidFormat

/-! ## JSON values and `JSON.parse`

`extractJsonArray` feeds the bracketed span to `JSON.parse`; we embed a
JSON value type and a parser for it.  Numeric literals are kept as their
source token (their numeric value is never inspected by the code under
study). -/

/-- A parsed JSON value. -/
inductive Json where
  | null : Json
  | bool : Bool → Json
  | num : String → Json
  | str : String → Json
  | arr : List Json → Json
  | obj : List (String × Json) → Json

/-- The whitespace characters `JSON.parse` skips between tokens. -/
def jsonWs (c : Char) : Bool :=
  c == ' ' || c == '\t' || c == '\n' || c == '\r'

/-- Skip inter-token whitespace. -/
def skipWs (cs : List Char) : List Char := cs.dropWhile jsonWs

/-- Hexadecimal digit test, for `\u` escapes. -/
def isHexDigit (c : Char) : Bool :=
  c.isDigit || ('a' ≤ c && c ≤ 'f') || ('A' ≤ c && c ≤ 'F')

/-- Value of a hexadecimal digit. -/
def hexVal (c : Char) : Nat :=
  if c.isDigit then c.toNat - '0'.toNat
  else if 'a' ≤ c then c.toNat - 'a'.toNat + 10
  else c.toNat - 'A'.toNat + 10

/-- Parse the body of a JSON string literal (after the opening quote),
returning the decoded characters and the remaining input.  Raw control
characters are rejected, escapes are decoded; a `\u` escape denoting an
invalid scalar value falls back to the default character. -/
def parseStringBody : List Char → Option (List Char × List Char)
  | [] => none
  | '"' :: rest => some ([], rest)
  | '\\' :: 'u' :: h1 :: h2 :: h3 :: h4 :: rest =>
    if isHexDigit h1 && isHexDigit h2 && isHexDigit h3 && isHexDigit h4 then
      match parseStringBody rest with
      | some (s, r) =>
        some (Char.ofNat (((hexVal h1 * 16 + hexVal h2) * 16 + hexVal h3) * 16 + hexVal h4) :: s, r)
      | none => none
    else none
  | '\\' :: e :: rest =>
    match
      (match e with
       | '"' => some '"'
       | '\\' => some '\\'
       | '/' => some '/'
       | 'b' => some '\x08'
       | 'f' => some '\x0c'
       | 'n' => some '\n'
       | 'r' => some '\r'
       | 't' => some '\t'
       | _ => none) with
    | some c =>
      match parseStringBody rest with
      | some (s, r) => some (c :: s, r)
      | none => none
    | none => none
  | '\\' :: [] => none
  | c :: rest =>
    if c.toNat < 32 then none
    else
      match parseStringBody rest with
      | some (s, r) => some (c :: s, r)
      | none => none

/-- Parse a JSON numeric literal `-?(0|[1-9][0-9]*)(\.[0-9]+)?([eE][+-]?[0-9]+)?`,
returning its source token and the remaining input. -/
def parseNumberToken (cs : List Char) : Option (List Char × List Char) :=
  let (sign, cs1) : List Char × List Char :=
    match cs with
    | '-' :: t => (['-'], t)
    | _ => ([], cs)
  let intPart : Option (List Char × List Char) :=
    match cs1 with
    | '0' :: t => some (['0'], t)
    | c :: t =>
      if c.isDigit then
        let ds := t.takeWhile Char.isDigit
        some (c :: ds, t.dropWhile Char.isDigit)
      else none
    | [] => none
  match intPart with
  | none => none
  | some (ip, r1) =>
    let (fracPart, r2) : List Char × List Char :=
      match r1 with
      | '.' :: t =>
        let ds := t.takeWhile Char.isDigit
        if ds.isEmpty then ([], r1) else ('.' :: ds, t.dropWhile Char.isDigit)
      | _ => ([], r1)
    let fracBad : Bool :=
      match r1 with
      | '.' :: t => (t.takeWhile Char.isDigit).isEmpty
      | _ => false
    if fracBad then none
    else
      let (expPart, r3) : List Char × List Char :=
        match r2 with
        | e :: t =>
          if e == 'e' || e == 'E' then
            let (sg, t2) : List Char × List Char :=
              match t with
              | '+' :: u => (['+'], u)
              | '-' :: u => (['-'], u)
              | _ => ([], t)
            let ds := t2.takeWhile Char.isDigit
            if ds.isEmpty then ([], r2)
            else (e :: (sg ++ ds), t2.dropWhile Char.isDigit)
          else ([], r2)
        | [] => ([], r2)
      some (sign ++ ip ++ fracPart ++ expPart, r3)

mutual

/-- Parse one JSON value, returning it and the remaining input.  `fuel`
bounds the recursion; `input length + 1` always suffices since every
recursive call follows the consumption of at least one character. -/
def parseValue : Nat → List Char → Option (Json × List Char)
  | 0, _ => none
  | fuel + 1, cs =>
    match skipWs cs with
    | 'n' :: 'u' :: 'l' :: 'l' :: r => some (Json.null, r)
    | 't' :: 'r' :: 'u' :: 'e' :: r => some (Json.bool true, r)
    | 'f' :: 'a' :: 'l' :: 's' :: 'e' :: r => some (Json.bool false, r)
    | '"' :: r =>
      match parseStringBody r with
      | some (s, rest) => some (Json.str (String.mk s), rest)
      | none => none
    | '[' :: r =>
      match skipWs r with
      | ']' :: r2 => some (Json.arr [], r2)
      | _ => parseItems fuel r []
    | '\x7b' :: r =>
      match skipWs r with
      | '\x7d' :: r2 => some (Json.obj [], r2)
      | _ => parseFields fuel r []
    | c :: r =>
      if c == '-' || c.isDigit then
        match parseNumberToken (c :: r) with
        | some (tok, rest) => some (Json.num (String.mk tok), rest)
        | none => none
      else none
    | [] => none

/-- Parse the comma-separated elements of a non-empty JSON array, up to
and including the closing bracket. -/
def parseItems : Nat → List Char → List Json → Option (Json × List Char)
  | 0, _, _ => none
  | fuel + 1, cs, acc =>
    match parseValue fuel cs with
    | none => none
    | some (v, rest) =>
      match skipWs rest with
      | ',' :: r2 => parseItems fuel r2 (v :: acc)
      | ']' :: r2 => some (Json.arr (v :: acc).reverse, r2)
      | _ => none

/-- Parse the comma-separated members of a non-empty JSON object, up to
and including the closing brace. -/
def parseFields : Nat → List Char → List (String × Json) → Option (Json × List Char)
  | 0, _, _ => none
  | fuel + 1, cs, acc =>
    match skipWs cs with
    | '"' :: r =>
      match parseStringBody r with
      | none => none
      | some (k, r2) =>
        match skipWs r2 with
        | ':' :: r3 =>
          match parseValue fuel r3 with
          | none => none
          | some (v, r4) =>
            match skipWs r4 with
            | ',' :: r5 => parseFields fuel r5 ((String.mk k, v) :: acc)
            | '\x7d' :: r5 => some (Json.obj ((String.mk k, v) :: acc).reverse, r5)
            | _ => none
        | _ => none
    | _ => none

end

/-- `JSON.parse`: one value surrounded only by whitespace. -/
def parseJson (s : String) : Option Json :=
  match parseValue (s.length + 1) s.data with
  | some (j, rest) => if (skipWs rest).isEmpty then some j else none
  | none => none

/-! ## `extractJsonArray` -/

/-- The span matched by the regex `\[[\s\S]*\]` on `text`, if any: the
regex anchors at the first `[` that has some `]` after it, and the greedy
`[\s\S]*` extends the match to the last `]` of the whole text.  (If the
first `[` of the text has no `]` after it, no later `[` does either.) -/
def matchBracketSpan (text : String) : Option String :=
  let cs := text.data
  match cs.findIdx? (fun c => c == '[') with
  | none => none
  | some i =>
    match cs.reverse.findIdx? (fun c => c == ']') with
    | none => none
    | some jr =>
      let j := cs.length - 1 - jr
      if i < j then some (String.mk ((cs.drop i).take (j - i + 1))) else none

/-- `extractJsonArray(text)` of the Express server and of the serverless
flashcards/quiz endpoints: guard against a falsy argument, match
`\[[\s\S]*\]`, and `JSON.parse` the matched span, returning null on any
failure. -/
def extractJsonArray (text : String) : Option Json :=
  if text.isEmpty then none
  else
    match matchBracketSpan text with
    | none => none
    | some sub =>
      match parseJson sub with
      | some j => some j
      | none => none

/-! ## `isNumberedMarkdownList` -/

/-- The character class `\s` of JavaScript regular expressions (and the
character set trimmed by `String.prototype.trim`), restricted to the
code points that occur in practice; the rarer Unicode space separators
are omitted. -/
def jsWs (c : Char) : Bool :=
  c == ' ' || c == '\t' || c == '\n' || c == '\r' || c == '\x0b' ||
    c == '\x0c' || c == '\u00A0' || c == '\uFEFF'

/-- `String.prototype.trim` over the characters of a string. -/
def jsTrimChars (cs : List Char) : List Char :=
  ((cs.dropWhile jsWs).reverse.dropWhile jsWs).reverse

/-- `String.prototype.trim`. -/
def jsTrim (s : String) : String :=
  String.mk (jsTrimChars s.data)

/-- Split a character list at every newline. -/
def splitOnNewline : List Char → List (List Char)
  | [] => [[]]
  | c :: t =>
    if c == '\n' then [] :: splitOnNewline t
    else
      match splitOnNewline t with
      | [] => [[c]]
      | h :: r => (c :: h) :: r

/-- The non-empty trimmed lines of a text:
`text.split(/\r?\n/).map(l => l.trim()).filter(Boolean)`.  Splitting on
`\n` alone is equivalent here because the optional `\r` sits at the end
of its piece and the immediate trim removes it. -/
def jsLines (text : String) : List String :=
  (((splitOnNewline text.data).map jsTrimChars).filter (fun cs => !cs.isEmpty)).map String.mk

/-- The test `/^\d+\.[\s\-]/.test(l)`: one or more digits, a dot, then a
whitespace character or a dash.  The greedy `\d+` is exact: no shorter
digit run can be followed by `.` since `.` is not a digit. -/
def numberedTestA (l : String) : Bool :=
  !(l.data.takeWhile Char.isDigit).isEmpty &&
    (match l.data.dropWhile Char.isDigit with
     | '.' :: c :: _ => jsWs c || c == '-'
     | _ => false)

/-- The test `/^\d+\.\s+/.test(l)`: one or more digits, a dot, then
whitespace. -/
def numberedTestB (l : String) : Bool :=
  !(l.data.takeWhile Char.isDigit).isEmpty &&
    (match l.data.dropWhile Char.isDigit with
     | '.' :: c :: _ => jsWs c
     | _ => false)

/-- `isNumberedMarkdownList(text)` of the Express server: at least half
of the non-empty trimmed lines (rounded down, minimum 1) must match one
of the two numbered-line tests. -/
def isNumberedMarkdownList (text : String) : Bool :=
  let lines := jsLines text
  if lines.isEmpty then false
  else
    let numbered := lines.filter (fun l => numberedTestA l || numberedTestB l)
    decide (max 1 (lines.length / 2) ≤ numbered.length)

/-! ## The shape-aware wrapper `callGeminiWithRetry`

The Express server version of `callGeminiAPI` performs a single fetch
and throws on any failure, so one invocation is one remote call; it is
modelled by one scripted `Reply`. -/

/-- Outcome of one `callGeminiAPI` invocation of the Express server:
the returned text, or the thrown error. -/
abbrev Reply := Except GeminiError String

/-- `options.expect` of `callGeminiWithRetry`. -/
inductive Expect where
  | any
  | json
  | markdownList
deriving DecidableEq

/-- The corrective instruction appended to the prompt when validation of
a non-final attempt fails. -/
def strengthening : Expect → String
  | Expect.json =>
    "\n\nIMPORTANT: Return ONLY the raw JSON array exactly as shown in the example. Do not include any surrounding backticks, commentary, or numbered lists. If you cannot, reply with an empty array []."
  | Expect.markdownList =>
    "\n\nIMPORTANT: When providing step-by-step instructions, return a numbered Markdown list (example:\n1. Step one\n2. Step two). Do not add extra commentary or code fences. Return only the list."
  | Expect.any =>
    "\n\nPlease respond concisely and avoid extra commentary."

/-- Whether a reply text passes the shape check of the given
expectation (`any` always passes; `json` requires a truthy
`extractJsonArray` result, and every parsed array, even the empty one,
is truthy; `markdownList` requires `isNumberedMarkdownList`). -/
def accepts : Expect → String → Bool
  | Expect.any, _ => true
  | Expect.json, text => (extractJsonArray text).isSome
  | Expect.markdownList, text => isNumberedMarkdownList text

/-- `const maxTries = 2` in `callGeminiWithRetry`. -/
def maxTries : Nat := 2

/-- Result of `callGeminiWithRetry`: the text it returned (null when the
final attempt threw), the number of `callGeminiAPI` invocations, and the
prompt sent on each of them. -/
structure WithRetryResult where
  text : Option String
  calls : Nat
  prompts : List String
deriving DecidableEq

/-- The `for (let attempt = 1; attempt <= maxTries; attempt++)` loop of
`callGeminiWithRetry`, with `fuel = maxTries + 1 - attempt`; `fuel = 0`
is the `return lastText` line after the loop.  On a caught error
`lastText` becomes null and the prompt is left unchanged; on a
validation failure of a non-final attempt the prompt is strengthened. -/
def withRetryLoop (expect : Expect) : Nat → String → Option String → List Reply → WithRetryResult
  | 0, _, lastText, _ => ⟨lastText, 0, []⟩
  | fuel + 1, prompt, _, replies =>
    let r := replies.headD (Except.error GeminiError.networkErr)
    let rest := replies.tail
    match r with
    | Except.error _ =>
      if fuel == 0 then ⟨none, 1, [prompt]⟩
      else
        let k := withRetryLoop expect fuel prompt none rest
        ⟨k.text, k.calls + 1, prompt :: k.prompts⟩
    | Except.ok text =>
      if accepts expect text then ⟨some text, 1, [prompt]⟩
      else
        let prompt2 := if fuel == 0 then prompt else prompt ++ strengthening expect
        let k := withRetryLoop expect fuel prompt2 (some text) rest
        ⟨k.text, k.calls + 1, prompt :: k.prompts⟩

/-- `callGeminiWithRetry(prompt, options)` of the Express server, run
against a script of replies. -/
def callGeminiWithRetry (prompt : String) (expect : Expect) (replies : List Reply) : WithRetryResult :=
  withRetryLoop expect maxTries prompt none replies

/-! ## The ajv schema validators -/

/-- Property lookup on a parsed JSON object.  `JSON.parse` lets a later
duplicate key overwrite an earlier one, so the last binding wins. -/
def getField (fs : List (String × Json)) (k : String) : Option Json :=
  match fs.reverse.find? (fun p => p.1 == k) with
  | some p => some p.2
  | none => none

/-- Schema test for type string. -/
def isStringJson : Json → Bool
  | Json.str _ => true
  | _ => false

/-- A required property of type string: present and a string. -/
def hasStringField (fs : List (String × Json)) (k : String) : Bool :=
  match getField fs k with
  | some (Json.str _) => true
  | _ => false

/-- One flashcard item under `flashcardSchema`: an object with required
string properties `question` and `answer`. -/
def validFlashcardItem : Json → Bool
  | Json.obj fs => hasStringField fs "question" && hasStringField fs "answer"
  | _ => false

/-- `validateFlashcards = ajv.compile(flashcardSchema)`: an array each of
whose items is a valid flashcard. -/
def validateFlashcards : Json → Bool
  | Json.arr xs => xs.all validFlashcardItem
  | _ => false

/-- The required `options` property of a quiz item: an array of strings
with `minItems: 4, maxItems: 4`. -/
def validOptionsField (fs : List (String × Json)) : Bool :=
  match getField fs "options" with
  | some (Json.arr os) => os.all isStringJson && os.length == 4
  | _ => false

/-- One quiz item under `quizSchema`: an object with required string
properties `question`, `correctAnswer`, `explanation` and a required
4-element string array `options`.  Note that the schema does not relate
`correctAnswer` to `options`. -/
def validQuizItem : Json → Bool
  | Json.obj fs =>
    hasStringField fs "question" && validOptionsField fs &&
      hasStringField fs "correctAnswer" && hasStringField fs "explanation"
  | _ => false

/-- `validateQuiz = ajv.compile(quizSchema)`. -/
def validateQuiz : Json → Bool
  | Json.arr xs => xs.all validQuizItem
  | _ => false

/-! ## The request handlers -/

/-- What an endpoint sends back for a successful round trip: the
`response` field (the raw model text, possibly null), whether a
`warning` field accompanied it, and the number of model calls made. -/
structure EndpointResult where
  response : Option String
  warning : Bool
  calls : Nat
deriving DecidableEq

/-- Case-insensitive substring containment over character lists. -/
def containsSeq (needle hay : List Char) : Bool :=
  match hay with
  | [] => needle.isEmpty
  | _ :: t => needle.isPrefixOf hay || containsSeq needle t

/-- The test `/step|steps|step-by-step|stepwise|procedure/i.test(prompt)`
of the `/api/ask` handler.  Since every alternative other than
`procedure` contains `step`, the regex finds a match exactly when the
prompt contains `step` or `procedure` case-insensitively. -/
def stepPattern (prompt : String) : Bool :=
  let low := prompt.data.map Char.toLower
  containsSeq "step".data low || containsSeq "procedure".data low

/-- The instruction `/api/ask` appends when the step pattern fires. -/
def mlSuffix : String :=
  "\n\nWhen you provide step-by-step instructions, return them as a numbered Markdown list (\n1. Step one\n2. Step two\n) with a blank line between items. Do not include extra commentary."

/-- The stricter instruction the flashcards/quiz handlers append for
their second validation round. -/
def strongerSuffix : String :=
  "\n\nIMPORTANT: Return ONLY the raw JSON array exactly as shown. No commentary."

/-- The extra instruction `/api/quiz` appends to its base prompt before
the first call. -/
def quizJsonSuffix : String :=
  "\n\nIMPORTANT: Return ONLY the JSON array, with no extra text, numbered lists, or markdown. Use the exact keys shown in the example."

/-- The `/api/ask` handler of the Express server, after the empty-prompt
guard: detect the step pattern, possibly append the numbered-list
instruction, call `callGeminiWithRetry` with the corresponding
expectation, and send `{ response }` — with no warning field on any
path. -/
def askEndpoint (prompt : String) (replies : List Reply) : EndpointResult :=
  let expectML := stepPattern prompt
  let finalPrompt := if expectML then prompt ++ mlSuffix else prompt
  let r := callGeminiWithRetry finalPrompt
    (if expectML then Expect.markdownList else Expect.any) replies
  ⟨r.text, false, r.calls⟩

/-- Shared shape of the `/api/flashcards` and `/api/quiz` handlers of
the Express server, after the empty-topic guard and with the prompt
already built: a first `callGeminiWithRetry` round, extraction plus
schema validation, and on failure one more strengthened
`callGeminiWithRetry` round; if that also fails, the response of the
FIRST round is sent together with a warning. -/
def jsonEndpoint (validate : Json → Bool) (prompt : String) (replies : List Reply) : EndpointResult :=
  let r1 := callGeminiWithRetry prompt Expect.json replies
  let ok1 :=
    match extractJsonArray (r1.text.getD "") with
    | some j => validate j
    | none => false
  if ok1 then ⟨r1.text, false, r1.calls⟩
  else
    let r2 := callGeminiWithRetry (prompt ++ strongerSuffix) Expect.json (replies.drop r1.calls)
    let ok2 :=
      match extractJsonArray (r2.text.getD "") with
      | some j => validate j
      | none => false
    if ok2 then ⟨r2.text, false, r1.calls + r2.calls⟩
    else ⟨r1.text, true, r1.calls + r2.calls⟩

/-- The `/api/flashcards` handler, parameterized by the built prompt. -/
def flashcardsEndpoint (prompt : String) (replies : List Reply) : EndpointResult :=
  jsonEndpoint validateFlashcards prompt replies

/-- The `/api/quiz` handler, parameterized by the base prompt; the
handler appends its raw-JSON instruction before the first call. -/
def quizEndpoint (prompt : String) (replies : List Reply) : EndpointResult :=
  jsonEndpoint validateQuiz (prompt ++ quizJsonSuffix) replies

/-! ## Specification-side predicates

Claim-side readings, written from the words of the specification, to be
compared with the code-side definitions above. -/

/-- Claim-side reading of a numbered line: the line is a non-empty run
of digits (an integer), immediately followed by a dot and then a
whitespace-or-dash character. -/
def specNumberedLine (l : String) : Prop :=
  ∃ (ds : List Char) (c : Char) (rest : List Char),
    l.data = ds ++ '.' :: c :: rest ∧ ds ≠ [] ∧ (∀ d ∈ ds, d.isDigit = true) ∧
    (jsWs c = true ∨ c = '-')

/-- Claim-side acceptance for a numberedList expectation: at least
`max 1 (n / 2)` of the `n` non-empty trimmed lines are numbered. -/
def specNumberedAccept (text : String) : Prop :=
  ∃ sub : List String, sub.Sublist (jsLines text) ∧ (∀ l ∈ sub, specNumberedLine l) ∧
    max 1 ((jsLines text).length / 2) ≤ sub.length

/-- Claim-side cross-field consistency of a quiz item: its
`correctAnswer` equals one of its `options`. -/
def quizItemConsistent (e : Json) : Prop :=
  ∀ (fs : List (String × Json)) (ca : String) (os : List Json),
    e = Json.obj fs → getField fs "correctAnswer" = some (Json.str ca) →
    getField fs "options" = some (Json.arr os) → Json.str ca ∈ os

/-- The member list of a quiz item whose `correctAnswer` matches none of
its four options. -/
def mismatchedQuizItemFields : List (String × Json) :=
  [("question", Json.str "Which city is the capital of France?"),
   ("options", Json.arr [Json.str "London", Json.str "Berlin", Json.str "Madrid", Json.str "Rome"]),
   ("correctAnswer", Json.str "Paris"),
   ("explanation", Json.str "Paris is the capital of France.")]

/-- A one-item quiz payload carrying the mismatched item. -/
def mismatchedQuizPayload : Json := Json.arr [Json.obj mismatchedQuizItemFields]

/-- A reply text whose extraction parses to `mismatchedQuizPayload`. -/
def mismatchedQuizText : String :=
  "[\x7b\"question\":\"Which city is the capital of France?\",\"options\":[\"London\",\"Berlin\",\"Madrid\",\"Rome\"],\"correctAnswer\":\"Paris\",\"explanation\":\"Paris is the capital of France.\"\x7d]"

/-! ## Helper lemmas about the retrying client -/

/-- Each permitted loop iteration performs at most one fetch. -/
theorem geminiRetryLoop_calls_le :
    ∀ (fuel attempt : Nat) (lastError : Option GeminiError) (outcomes : List FetchOutcome),
      (geminiRetryLoop fuel attempt lastError outcomes).calls ≤ fuel := by
  intro fuel
  induction fuel with
  | zero => intro a le outs; simp [geminiRetryLoop]
  | succ f ih =>
    intro a le outs
    simp only [geminiRetryLoop]
    cases tryStep a (outs.headD FetchOutcome.networkError) with
    | success t => simp
    | rateLimitWait w => simpa using Nat.succ_le_succ (ih (a + 1) le outs.tail)
    | thrown e =>
      by_cases ha : a < maxRetries
      · simp only [if_pos ha]
        simpa using Nat.succ_le_succ (ih (a + 1) (some e) outs.tail)
      · simp [if_neg ha]

/-- The call count and backoff schedule of the loop do not depend on the
error remembered in `lastError` (only the raised error can). -/
theorem geminiRetryLoop_ignores_lastError :
    ∀ (fuel attempt : Nat) (le1 le2 : Option GeminiError) (outcomes : List FetchOutcome),
      (geminiRetryLoop fuel attempt le1 outcomes).calls =
        (geminiRetryLoop fuel attempt le2 outcomes).calls ∧
      (geminiRetryLoop fuel attempt le1 outcomes).waits =
        (geminiRetryLoop fuel attempt le2 outcomes).waits := by
  intro fuel
  induction fuel with
  | zero => intro a le1 le2 outs; exact ⟨rfl, rfl⟩
  | succ f ih =>
    intro a le1 le2 outs
    simp only [geminiRetryLoop]
    cases tryStep a (outs.headD FetchOutcome.networkError) with
    | success t => exact ⟨rfl, rfl⟩
    | rateLimitWait w =>
      obtain ⟨hc, hw⟩ := ih (a + 1) le1 le2 outs.tail
      exact ⟨by simp [hc], by simp [hw]⟩
    | thrown e => exact ⟨rfl, rfl⟩

/-- A failing outcome consumed while attempts remain costs one call plus
one backoff wait and hands control to the next attempt. -/
theorem geminiRetryLoop_fail_step (fuel attempt : Nat) (lastError : Option GeminiError)
    (o : FetchOutcome) (rest : List FetchOutcome)
    (hf : isFailure o = true) (ha : attempt < maxRetries) :
    ∃ le2 w, geminiRetryLoop (fuel + 1) attempt lastError (o :: rest) =
      ⟨(geminiRetryLoop fuel (attempt + 1) le2 rest).result,
       (geminiRetryLoop fuel (attempt + 1) le2 rest).calls + 1,
       w :: (geminiRetryLoop fuel (attempt + 1) le2 rest).waits⟩ := by
  cases o with
  | networkError =>
    exact ⟨some GeminiError.networkErr, 2 ^ attempt * 1000,
      by simp [geminiRetryLoop, tryStep, ha]⟩
  | httpError s ra =>
    by_cases hs : s == 429
    · cases ra with
      | some secs =>
        exact ⟨lastError, secs * 1000, by simp [geminiRetryLoop, tryStep, hs, ha]⟩
      | none =>
        exact ⟨lastError, 2 ^ attempt * 1000, by simp [geminiRetryLoop, tryStep, hs, ha]⟩
    · exact ⟨some (GeminiError.apiError s), 2 ^ attempt * 1000,
        by simp [geminiRetryLoop, tryStep, hs, ha]⟩
  | ok ct =>
    cases ct with
    | some t => simp [isFailure] at hf
    | none =>
      exact ⟨some GeminiError.invalidFormat, 2 ^ attempt * 1000,
        by simp [geminiRetryLoop, tryStep, ha]⟩

/-- A failing outcome consumed by the final permitted attempt makes the
client raise the corresponding error. -/
theorem geminiRetryLoop_fail_last (lastError : Option GeminiError) (o : FetchOutcome)
    (rest : List FetchOutcome) (hf : isFailure o = true) :
    geminiRetryLoop 1 maxRetries lastError (o :: rest) =
      ⟨Except.error (thrownError o), 1, []⟩ := by
  cases o with
  | networkError => simp [geminiRetryLoop, tryStep, thrownError, maxRetries]
  | httpError s ra =>
    simp [geminiRetryLoop, tryStep, thrownError, maxRetries]
  | ok ct =>
    cases ct with
    | some t => simp [isFailure] at hf
    | none => simp [geminiRetryLoop, tryStep, thrownError, maxRetries]

/-! ## Claim C1 -/

/-- C1: for every prompt, the resilient client makes at most
`maxRetries + 1 = 4` calls to the remote endpoint; and when every
consumed outcome fails, the error of the last consumed outcome is raised
to the caller after exactly 4 calls — never a silent empty success or a
fallback value produced at this layer. -/
theorem c1_retry_budget :
    (∀ outcomes : List FetchOutcome, (callGeminiAPI outcomes).calls ≤ maxRetries + 1) ∧
    ∀ (o1 o2 o3 o4 : FetchOutcome) (rest : List FetchOutcome),
      isFailure o1 = true → isFailure o2 = true → isFailure o3 = true → isFailure o4 = true →
      (callGeminiAPI (o1 :: o2 :: o3 :: o4 :: rest)).result = Except.error (thrownError o4) ∧
      (callGeminiAPI (o1 :: o2 :: o3 :: o4 :: rest)).calls = 4 := by
  constructor
  · intro outs
    exact geminiRetryLoop_calls_le (maxRetries + 1) 0 none outs
  · intro o1 o2 o3 o4 rest h1 h2 h3 h4
    obtain ⟨le1, w1, e1⟩ := geminiRetryLoop_fail_step 3 0 none o1 (o2 :: o3 :: o4 :: rest) h1 (by decide)
    obtain ⟨le2, w2, e2⟩ := geminiRetryLoop_fail_step 2 1 le1 o2 (o3 :: o4 :: rest) h2 (by decide)
    obtain ⟨le3, w3, e3⟩ := geminiRetryLoop_fail_step 1 2 le2 o3 (o4 :: rest) h3 (by decide)
    have e4 := geminiRetryLoop_fail_last le3 o4 rest h4
    show (geminiRetryLoop (3 + 1) 0 none _).result = _ ∧ (geminiRetryLoop (3 + 1) 0 none _).calls = 4
    rw [e1, e2, e3]
    show (geminiRetryLoop (0 + 1) 3 le3 _).result = _ ∧
      (geminiRetryLoop (0 + 1) 3 le3 _).calls + 1 + 1 + 1 = 4
    rw [show (0 + 1 : Nat) = 1 from rfl, show (3 : Nat) = maxRetries from rfl, e4]
    exact ⟨rfl, rfl⟩

/-- Witness for C1 at a concrete input: four failing 500 replies exhaust
the budget and the final 500 error is raised. -/
theorem c1_retry_budget_witness :
    isFailure (FetchOutcome.httpError 500 none) = true ∧
    (callGeminiAPI [FetchOutcome.httpError 500 none, FetchOutcome.httpError 500 none,
      FetchOutcome.httpError 500 none, FetchOutcome.httpError 500 none]).result =
        Except.error (GeminiError.apiError 500) := by
  refine ⟨by decide, ?_⟩
  exact (c1_retry_budget.2 (FetchOutcome.httpError 500 none) (FetchOutcome.httpError 500 none)
    (FetchOutcome.httpError 500 none) (FetchOutcome.httpError 500 none) []
    (by decide) (by decide) (by decide) (by decide)).1

/-! ## Claim C4 -/

/-- C4: whenever the endpoint replies 429 and retry attempts remain, the
client retries (one more call is charged and control passes to the next
attempt), and the wait before that retry is the `retry-after` header
value in seconds times 1000 when the header is present, else
`2^attempt * 1000` milliseconds; the attempt counter of `callGeminiAPI`
starts at 0, so a first-call 429 without the header waits
`2^0` seconds. -/
theorem c4_rate_limit_wait :
    (∀ (fuel attempt : Nat) (lastError : Option GeminiError) (retryAfter : Option Nat)
        (rest : List FetchOutcome), attempt < maxRetries →
      geminiRetryLoop (fuel + 1) attempt lastError (FetchOutcome.httpError 429 retryAfter :: rest) =
        ⟨(geminiRetryLoop fuel (attempt + 1) lastError rest).result,
         (geminiRetryLoop fuel (attempt + 1) lastError rest).calls + 1,
         (match retryAfter with
          | some secs => secs * 1000
          | none => 2 ^ attempt * 1000) :: (geminiRetryLoop fuel (attempt + 1) lastError rest).waits⟩) ∧
    ∀ (retryAfter : Option Nat) (rest : List FetchOutcome),
      callGeminiAPI (FetchOutcome.httpError 429 retryAfter :: rest) =
        ⟨(geminiRetryLoop maxRetries 1 none rest).result,
         (geminiRetryLoop maxRetries 1 none rest).calls + 1,
         (match retryAfter with
          | some secs => secs * 1000
          | none => 2 ^ 0 * 1000) :: (geminiRetryLoop maxRetries 1 none rest).waits⟩ := by
  constructor
  · intro fuel attempt lastError retryAfter rest ha
    simp [geminiRetryLoop, tryStep, ha]
  · intro retryAfter rest
    simp [callGeminiAPI, geminiRetryLoop, tryStep, maxRetries]

/-- Witness for C4 at a concrete input: a first-call 429 carrying
`retry-after: 7` makes the client wait 7000 ms and succeed on the
retried call. -/
theorem c4_rate_limit_wait_witness :
    (0 < maxRetries) ∧
    geminiRetryLoop (1 + 1) 0 none
      [FetchOutcome.httpError 429 (some 7), FetchOutcome.ok (some "hi")] =
      ⟨Except.ok "hi", 2, [7000]⟩ := by
  constructor
  · decide
  · rw [c4_rate_limit_wait.1 1 0 none (some 7) [FetchOutcome.ok (some "hi")] (by decide)]
    rfl

/-! ## Claim C9 -/

/-- C9: a 2xx reply lacking the expected candidate/content/text
structure is handled exactly like a transient transport error: the call
count and backoff schedule match those of a network error in the same
position, while attempts remain it is retried after `2^attempt` seconds
under the same budget, and with the budget exhausted the
invalid-response-format error is raised only after all
`maxRetries + 1 = 4` calls. -/
theorem c9_malformed_retryable :
    (∀ (fuel attempt : Nat) (lastError : Option GeminiError) (rest : List FetchOutcome),
      (geminiRetryLoop fuel attempt lastError (FetchOutcome.ok none :: rest)).calls =
        (geminiRetryLoop fuel attempt lastError (FetchOutcome.networkError :: rest)).calls ∧
      (geminiRetryLoop fuel attempt lastError (FetchOutcome.ok none :: rest)).waits =
        (geminiRetryLoop fuel attempt lastError (FetchOutcome.networkError :: rest)).waits) ∧
    (∀ (fuel attempt : Nat) (lastError : Option GeminiError) (rest : List FetchOutcome),
      attempt < maxRetries →
      geminiRetryLoop (fuel + 1) attempt lastError (FetchOutcome.ok none :: rest) =
        ⟨(geminiRetryLoop fuel (attempt + 1) (some GeminiError.invalidFormat) rest).result,
         (geminiRetryLoop fuel (attempt + 1) (some GeminiError.invalidFormat) rest).calls + 1,
         2 ^ attempt * 1000 ::
           (geminiRetryLoop fuel (attempt + 1) (some GeminiError.invalidFormat) rest).waits⟩) ∧
    callGeminiAPI (List.replicate 4 (FetchOutcome.ok none)) =
      ⟨Except.error GeminiError.invalidFormat, 4, [1000, 2000, 4000]⟩ := by
  refine ⟨?_, ?_, ?_⟩
  · intro fuel attempt lastError rest
    cases fuel with
    | zero => exact ⟨rfl, rfl⟩
    | succ f =>
      by_cases ha : attempt < maxRetries
      · simp only [geminiRetryLoop, tryStep, List.headD, List.tail, if_pos ha]
        obtain ⟨hc, hw⟩ := geminiRetryLoop_ignores_lastError f (attempt + 1)
          (some GeminiError.invalidFormat) (some GeminiError.networkErr) rest
        exact ⟨by simp [hc], by simp [hw]⟩
      · simp [geminiRetryLoop, tryStep, if_neg ha]
  · intro fuel attempt lastError rest ha
    simp [geminiRetryLoop, tryStep, ha]
  · rfl

/-- Witness for C9 at a concrete input: a malformed first reply is
retried after `2^0` seconds and the retried call succeeds. -/
theorem c9_malformed_retryable_witness :
    (0 < maxRetries) ∧
    geminiRetryLoop (1 + 1) 0 none [FetchOutcome.ok none, FetchOutcome.ok (some "t")] =
      ⟨Except.ok "t", 2, [1000]⟩ := by
  constructor
  · decide
  · rw [c9_malformed_retryable.2.1 1 0 none [FetchOutcome.ok (some "t")] (by decide)]
    rfl

/-! ## Helper lemmas about the shape-aware wrapper -/

/-- Each permitted try of the wrapper performs at most one call. -/
theorem withRetryLoop_calls_le (e : Expect) :
    ∀ (fuel : Nat) (p : String) (lt : Option String) (rs : List Reply),
      (withRetryLoop e fuel p lt rs).calls ≤ fuel := by
  intro fuel
  induction fuel with
  | zero => intro p lt rs; simp [withRetryLoop]
  | succ f ih =>
    intro p lt rs
    simp only [withRetryLoop]
    cases hr : rs.headD (Except.error GeminiError.networkErr) with
    | error err =>
      by_cases hf : (f == 0) = true
      · simp [hf]
      · simp only [Bool.not_eq_true] at hf
        simp only [hf, Bool.false_eq_true, if_false]
        simpa using Nat.succ_le_succ (ih p none rs.tail)
    | ok text =>
      by_cases ha : accepts e text = true
      · simp [ha]
      · simp only [Bool.not_eq_true] at ha
        simp only [ha, Bool.false_eq_true, if_false]
        simpa using Nat.succ_le_succ (ih _ _ _)

/-- The wrapper never makes more than `maxTries = 2` calls. -/
theorem callGeminiWithRetry_calls_le (p : String) (e : Expect) (rs : List Reply) :
    (callGeminiWithRetry p e rs).calls ≤ 2 :=
  withRetryLoop_calls_le e maxTries p none rs

/-- The final permitted try makes exactly one call, with the prompt it
was given. -/
theorem withRetryLoop_one (e : Expect) (p : String) (lt : Option String) (rs : List Reply) :
    (withRetryLoop e 1 p lt rs).calls = 1 ∧ (withRetryLoop e 1 p lt rs).prompts = [p] := by
  simp only [withRetryLoop]
  cases hr : rs.headD (Except.error GeminiError.networkErr) with
  | error err => simp
  | ok text =>
    by_cases ha : accepts e text = true
    · simp [ha]
    · simp only [Bool.not_eq_true] at ha
      simp [ha, withRetryLoop]

/-- A flashcards/quiz request makes at most four model calls: at most
two in each of its two validation rounds. -/
theorem jsonEndpoint_calls_le (validate : Json → Bool) (prompt : String) (replies : List Reply) :
    (jsonEndpoint validate prompt replies).calls ≤ 4 := by
  have h1 := callGeminiWithRetry_calls_le prompt Expect.json replies
  have h2 := callGeminiWithRetry_calls_le (prompt ++ strongerSuffix) Expect.json
    (replies.drop (callGeminiWithRetry prompt Expect.json replies).calls)
  simp only [jsonEndpoint]
  split
  · dsimp only
    omega
  · split
    · dsimp only
      omega
    · dsimp only
      omega

/-! ## Claim C3 -/

/-- C3 fails on the code as stated: a flashcards request whose replies
all fail shape validation makes four model calls, not at most two — the
first wrapper round makes two calls and the handler then runs a second
strengthened wrapper round of two more. -/
theorem c3_counterexample :
    (flashcardsEndpoint "Make flashcards about lists"
      [Except.ok "alpha", Except.ok "beta", Except.ok "gamma", Except.ok "delta"]).calls = 4 := by
  rfl

/-- C3 (amended): the shape-aware client itself performs exactly one
repair round-trip — when the first reply fails validation, exactly one
additional call is made and its prompt is the original prompt extended
with the shape-specific corrective instruction, for 2 calls per client
invocation; however the flashcards/quiz handlers invoke the client a
second time when schema validation still fails, so a shape-validation
failure can cause up to 4 total model calls for such a request, and at
most 2 for a chat (numberedList/any) request. -/
theorem c3_repair_round_trip :
    (∀ (prompt : String) (expect : Expect) (replies : List Reply),
      (callGeminiWithRetry prompt expect replies).calls ≤ maxTries) ∧
    (∀ (prompt : String) (expect : Expect) (t : String) (rest : List Reply),
      accepts expect t = false →
      (callGeminiWithRetry prompt expect (Except.ok t :: rest)).calls = 2 ∧
      (callGeminiWithRetry prompt expect (Except.ok t :: rest)).prompts =
        [prompt, prompt ++ strengthening expect]) ∧
    (∀ (validate : Json → Bool) (prompt : String) (replies : List Reply),
      (jsonEndpoint validate prompt replies).calls ≤ 4) ∧
    (∀ (prompt : String) (replies : List Reply), (askEndpoint prompt replies).calls ≤ 2) := by
  refine ⟨?_, ?_, ?_, ?_⟩
  · intro prompt expect replies
    exact withRetryLoop_calls_le expect maxTries prompt none replies
  · intro prompt expect t rest hacc
    obtain ⟨hc, hp⟩ := withRetryLoop_one expect (prompt ++ strengthening expect) (some t) rest
    constructor
    · show (withRetryLoop expect maxTries prompt none (Except.ok t :: rest)).calls = 2
      simp [withRetryLoop, maxTries, hacc]
      split <;> rfl
    · show (withRetryLoop expect maxTries prompt none (Except.ok t :: rest)).prompts =
        [prompt, prompt ++ strengthening expect]
      simp [withRetryLoop, maxTries, hacc]
      split <;> rfl
  · exact jsonEndpoint_calls_le
  · intro prompt replies
    exact withRetryLoop_calls_le _ maxTries _ none replies

/-- Witness for C3 (amended) at a concrete input: a prose first reply is
repaired with one strengthened call. -/
theorem c3_repair_round_trip_witness :
    accepts Expect.json "hello there" = false ∧
    (callGeminiWithRetry "P" Expect.json [Except.ok "hello there"]).calls = 2 ∧
    (callGeminiWithRetry "P" Expect.json [Except.ok "hello there"]).prompts =
      ["P", "P" ++ strengthening Expect.json] := by
  refine ⟨by decide, ?_⟩
  exact c3_repair_round_trip.2.1 "P" Expect.json "hello there" [] (by decide)

/-! ## Claim C2 -/

/-- C2 fails on the code as stated: for a numberedList expectation with
both replies containing zero numbered lines, the chat handler returns
the raw text of the second attempt after exactly 2 calls, but with NO
warning flag — the `warning` field of the result is `false`, so the
caller receives the unvalidated text silently. -/
theorem c2_counterexample :
    stepPattern "Explain the steps to make tea" = true ∧
    isNumberedMarkdownList "Boil water first." = false ∧
    isNumberedMarkdownList "Use a kettle." = false ∧
    askEndpoint "Explain the steps to make tea"
      [Except.ok "Boil water first.", Except.ok "Use a kettle."] =
      ⟨some "Use a kettle.", false, 2⟩ := by
  exact ⟨by decide, by decide, by decide, rfl⟩

/-- C2 (amended): when both the original and the repair attempt fail
shape validation, the caller receives the best available raw text, but
the warning flag depends on the path — the flashcards/quiz handlers
return the FIRST round text with a non-fatal warning after their two
rounds (4 calls), while the chat handler with a numberedList expectation
returns the raw text of the second attempt after exactly 2 calls with no
warning flag at all. -/
theorem c2_warned_fallback :
    (∀ (prompt t1 t2 : String), stepPattern prompt = true →
      isNumberedMarkdownList t1 = false → isNumberedMarkdownList t2 = false →
      askEndpoint prompt [Except.ok t1, Except.ok t2] = ⟨some t2, false, 2⟩) ∧
    (∀ (validate : Json → Bool) (prompt t1 t2 t3 t4 : String),
      extractJsonArray t1 = none → extractJsonArray t2 = none →
      extractJsonArray t3 = none → extractJsonArray t4 = none →
      jsonEndpoint validate prompt [Except.ok t1, Except.ok t2, Except.ok t3, Except.ok t4] =
        ⟨some t2, true, 4⟩) := by
  constructor
  · intro prompt t1 t2 hp h1 h2
    simp [askEndpoint, callGeminiWithRetry, maxTries, withRetryLoop, accepts, hp, h1, h2]
  · intro validate prompt t1 t2 t3 t4 h1 h2 h3 h4
    simp [jsonEndpoint, callGeminiWithRetry, maxTries, withRetryLoop, accepts, h1, h2, h3, h4]

/-- Witness for C2 (amended) at concrete inputs: both paths evaluated. -/
theorem c2_warned_fallback_witness :
    stepPattern "What is the procedure to reboot" = true ∧
    askEndpoint "What is the procedure to reboot"
      [Except.ok "Turn it off.", Except.ok "Turn it on."] =
      ⟨some "Turn it on.", false, 2⟩ ∧
    jsonEndpoint validateFlashcards "Q"
      [Except.ok "one", Except.ok "two", Except.ok "three", Except.ok "four"] =
      ⟨some "two", true, 4⟩ := by
  refine ⟨by decide, ?_, ?_⟩
  · exact c2_warned_fallback.1 "What is the procedure to reboot" "Turn it off." "Turn it on."
      (by decide) (by decide) (by decide)
  · exact c2_warned_fallback.2 validateFlashcards "Q" "one" "two" "three" "four"
      rfl rfl rfl rfl

/-! ## Claim C5 -/

/-- C5: for a jsonArray expectation the reply
`Sure! [...] thanks` has its bracketed span extracted and parsed, every
element satisfies the flashcard schema, and the flashcards handler
accepts it on the first attempt (1 call, no warning) — extraction does
not require the reply to consist of nothing but JSON. -/
theorem c5_json_extraction :
    extractJsonArray "Sure! [\x7b\"question\":\"Q\",\"answer\":\"A\"\x7d] thanks" =
      some (Json.arr [Json.obj [("question", Json.str "Q"), ("answer", Json.str "A")]]) ∧
    validateFlashcards
      (Json.arr [Json.obj [("question", Json.str "Q"), ("answer", Json.str "A")]]) = true ∧
    flashcardsEndpoint "P"
      [Except.ok "Sure! [\x7b\"question\":\"Q\",\"answer\":\"A\"\x7d] thanks"] =
      ⟨some "Sure! [\x7b\"question\":\"Q\",\"answer\":\"A\"\x7d] thanks", false, 1⟩ := by
  exact ⟨rfl, rfl, rfl⟩

/-! ## Claim C8 -/

/-- C8: for a flashcards (jsonArray) expectation, a first reply with no
parseable JSON array followed by a repaired reply of `[]` ends with the
empty array accepted as vacuously schema-conformant and returned without
a warning, after exactly 2 model calls. -/
theorem c8_empty_array_repair :
    extractJsonArray "I cannot produce JSON for that topic." = none ∧
    extractJsonArray "[]" = some (Json.arr []) ∧
    validateFlashcards (Json.arr []) = true ∧
    flashcardsEndpoint "P"
      [Except.ok "I cannot produce JSON for that topic.", Except.ok "[]"] =
      ⟨some "[]", false, 2⟩ := by
  exact ⟨rfl, rfl, rfl, rfl⟩

/-! ## Claim C6 -/

set_option maxRecDepth 4000 in
/-- C6 fails on the code as stated: the quiz schema validator accepts a
payload whose `correctAnswer` (`Paris`) equals none of its four options,
and the quiz handler returns such a reply without any warning — the
cross-field consistency part of the claimed invariant is not enforced. -/
theorem c6_counterexample :
    validateQuiz mismatchedQuizPayload = true ∧
    extractJsonArray mismatchedQuizText = some mismatchedQuizPayload ∧
    getField mismatchedQuizItemFields "correctAnswer" = some (Json.str "Paris") ∧
    getField mismatchedQuizItemFields "options" =
      some (Json.arr (["London", "Berlin", "Madrid", "Rome"].map Json.str)) ∧
    "Paris" ∉ ["London", "Berlin", "Madrid", "Rome"] ∧
    ¬ quizItemConsistent (Json.obj mismatchedQuizItemFields) ∧
    quizEndpoint "P" [Except.ok mismatchedQuizText] =
      ⟨some mismatchedQuizText, false, 1⟩ := by
  refine ⟨rfl, rfl, rfl, rfl, by decide, ?_, rfl⟩
  intro h
  have hmem := h mismatchedQuizItemFields "Paris"
    (["London", "Berlin", "Madrid", "Rome"].map Json.str) rfl rfl rfl
  rw [List.mem_map] at hmem
  obtain ⟨a, ha, hEq⟩ := hmem
  injection hEq with hEq'
  subst hEq'
  exact absurd ha (by decide)

/-- A required string property admitted by the schema check is present
and is a string. -/
theorem hasStringField_spec (fs : List (String × Json)) (k : String)
    (h : hasStringField fs k = true) : ∃ s, getField fs k = some (Json.str s) := by
  unfold hasStringField at h
  split at h
  · rename_i s heq
    exact ⟨s, heq⟩
  · simp at h

/-- An `options` property admitted by the schema check is an array of
exactly four strings. -/
theorem validOptionsField_spec (fs : List (String × Json))
    (h : validOptionsField fs = true) :
    ∃ os, getField fs "options" = some (Json.arr os) ∧ os.length = 4 ∧
      ∀ o ∈ os, ∃ s, o = Json.str s := by
  unfold validOptionsField at h
  split at h
  · rename_i os heq
    rw [Bool.and_eq_true] at h
    refine ⟨os, heq, by simpa using h.2, ?_⟩
    intro o ho
    have hstr := (List.all_eq_true.mp h.1) o ho
    cases o
    case str s => exact ⟨s, rfl⟩
    all_goals simp [isStringJson] at hstr
  · simp at h

/-- C6 (amended): every jsonArray payload accepted by quiz validation
has, on each element, the `question`, `options`, `correctAnswer` and
`explanation` fields with `options` an array of exactly 4 strings; the
schema-only check does not additionally require `correctAnswer` to equal
one of the options. -/
theorem c6_quiz_schema_fields :
    ∀ (xs : List Json), validateQuiz (Json.arr xs) = true →
      ∀ e ∈ xs, ∃ fs, e = Json.obj fs ∧
        (∃ q, getField fs "question" = some (Json.str q)) ∧
        (∃ os, getField fs "options" = some (Json.arr os) ∧ os.length = 4 ∧
          ∀ o ∈ os, ∃ s, o = Json.str s) ∧
        (∃ ca, getField fs "correctAnswer" = some (Json.str ca)) ∧
        (∃ ex, getField fs "explanation" = some (Json.str ex)) := by
  intro xs hv e he
  have hitem : validQuizItem e = true := by
    simp only [validateQuiz] at hv
    exact (List.all_eq_true.mp hv) e he
  cases e
  case obj fs =>
    simp only [validQuizItem, Bool.and_eq_true] at hitem
    obtain ⟨⟨⟨hq, hopt⟩, hca⟩, hex⟩ := hitem
    exact ⟨fs, rfl, hasStringField_spec fs "question" hq, validOptionsField_spec fs hopt,
      hasStringField_spec fs "correctAnswer" hca, hasStringField_spec fs "explanation" hex⟩
  all_goals simp [validQuizItem] at hitem

/-- Witness for C6 (amended) at a concrete input: the mismatched payload
is accepted and its element carries all required fields. -/
theorem c6_quiz_schema_fields_witness :
    validateQuiz (Json.arr [Json.obj mismatchedQuizItemFields]) = true ∧
    (∃ fs, Json.obj mismatchedQuizItemFields = Json.obj fs ∧
      (∃ q, getField fs "question" = some (Json.str q)) ∧
      (∃ os, getField fs "options" = some (Json.arr os) ∧ os.length = 4 ∧
        ∀ o ∈ os, ∃ s, o = Json.str s) ∧
      (∃ ca, getField fs "correctAnswer" = some (Json.str ca)) ∧
      (∃ ex, getField fs "explanation" = some (Json.str ex))) := by
  refine ⟨rfl, ?_⟩
  exact c6_quiz_schema_fields [Json.obj mismatchedQuizItemFields] rfl
    (Json.obj mismatchedQuizItemFields) (List.mem_cons_self _ _)

/-! ## Claim C7 -/

/-- `takeWhile` and `dropWhile` split an append at the boundary when the
left part satisfies the predicate throughout and the right part starts
with a failing element (or is empty). -/
theorem takeWhile_all_append (p : Char → Bool) :
    ∀ (ds tl : List Char), (∀ d ∈ ds, p d = true) →
      (∀ (c : Char) (t : List Char), tl = c :: t → p c = false) →
      (ds ++ tl).takeWhile p = ds ∧ (ds ++ tl).dropWhile p = tl := by
  intro ds
  induction ds with
  | nil =>
    intro tl _ hr
    cases tl with
    | nil => exact ⟨rfl, rfl⟩
    | cons c t =>
      simp [List.takeWhile, List.dropWhile, hr c t rfl]
  | cons d ds ih =>
    intro tl hds hr
    have hd : p d = true := hds d (List.mem_cons_self d ds)
    obtain ⟨h1, h2⟩ := ih tl (fun x hx => hds x (List.mem_cons_of_mem d hx)) hr
    constructor
    · simp [List.cons_append, List.takeWhile, hd, h1]
    · simp [List.cons_append, List.dropWhile, hd, h2]

/-- The digit prefix and the dot decomposition produced by a successful
numbered-line test. -/
theorem numbered_decomp (l : String) (c : Char) (t : List Char)
    (hne : (!(l.data.takeWhile Char.isDigit).isEmpty) = true)
    (heq : l.data.dropWhile Char.isDigit = '.' :: c :: t) :
    l.data = l.data.takeWhile Char.isDigit ++ '.' :: c :: t ∧
    l.data.takeWhile Char.isDigit ≠ [] ∧
    ∀ d ∈ l.data.takeWhile Char.isDigit, d.isDigit = true := by
  refine ⟨?_, ?_, ?_⟩
  · rw [← heq]
    exact (List.takeWhile_append_dropWhile (p := Char.isDigit) (l := l.data)).symm
  · intro hnil
    rw [hnil] at hne
    simp at hne
  · intro d hd
    exact List.mem_takeWhile_imp hd

/-- The disjunction of the two numbered-line regex tests captures
exactly the claim-side numbered-line predicate. -/
theorem numberedTest_iff (l : String) :
    (numberedTestA l || numberedTestB l) = true ↔ specNumberedLine l := by
  constructor
  · intro h
    rw [Bool.or_eq_true] at h
    rcases h with hA | hB
    · rw [numberedTestA, Bool.and_eq_true] at hA
      obtain ⟨hne, hm⟩ := hA
      split at hm
      · rename_i c t heq
        obtain ⟨hl, hne2, hdig⟩ := numbered_decomp l c t hne heq
        refine ⟨l.data.takeWhile Char.isDigit, c, t, hl, hne2, hdig, ?_⟩
        rw [Bool.or_eq_true] at hm
        rcases hm with h1 | h2
        · exact Or.inl h1
        · exact Or.inr (by simpa using h2)
      · simp at hm
    · rw [numberedTestB, Bool.and_eq_true] at hB
      obtain ⟨hne, hm⟩ := hB
      split at hm
      · rename_i c t heq
        obtain ⟨hl, hne2, hdig⟩ := numbered_decomp l c t hne heq
        exact ⟨l.data.takeWhile Char.isDigit, c, t, hl, hne2, hdig, Or.inl hm⟩
      · simp at hm
  · rintro ⟨ds, c, rest, hl, hne, hdig, hc⟩
    have hstep := takeWhile_all_append Char.isDigit ds ('.' :: c :: rest) hdig
      (fun x t hx => by cases hx; decide)
    rw [Bool.or_eq_true]
    left
    rw [numberedTestA, Bool.and_eq_true]
    constructor
    · rw [hl, hstep.1]
      cases ds with
      | nil => exact absurd rfl hne
      | cons d t => rfl
    · rw [hl, hstep.2]
      show (jsWs c || c == '-') = true
      rcases hc with h1 | h2
      · simp [h1]
      · subst h2
        simp

/-- C7: the numberedList validator accepts a text exactly when at least
`max 1 (n / 2)` of its `n` non-empty trimmed lines start with an integer
immediately followed by a dot and whitespace-or-dash; and the concrete
text `1. Do X / 2. Do Y / 3. Do Z` is accepted by the shape-aware client
on the first attempt. -/
theorem c7_numbered_list_rule :
    (∀ text : String, isNumberedMarkdownList text = true ↔ specNumberedAccept text) ∧
    isNumberedMarkdownList "1. Do X\n2. Do Y\n3. Do Z" = true ∧
    (∀ prompt : String,
      callGeminiWithRetry prompt Expect.markdownList
        [Except.ok "1. Do X\n2. Do Y\n3. Do Z"] =
        ⟨some "1. Do X\n2. Do Y\n3. Do Z", 1, [prompt]⟩) := by
  refine ⟨?_, by decide, fun prompt => ?_⟩
  · intro text
    constructor
    · intro h
      simp only [isNumberedMarkdownList] at h
      split at h
      · exact absurd h (by simp)
      · have hlen := of_decide_eq_true h
        refine ⟨(jsLines text).filter (fun l => numberedTestA l || numberedTestB l),
          List.filter_sublist _, ?_, hlen⟩
        intro l hl
        have hcl := List.of_mem_filter hl
        exact (numberedTest_iff l).mp hcl
    · rintro ⟨sub, hsub, hspec, hlen⟩
      have hcode : ∀ l ∈ sub, (fun l => numberedTestA l || numberedTestB l) l = true :=
        fun l hl => (numberedTest_iff l).mpr (hspec l hl)
      have hfil : sub.filter (fun l => numberedTestA l || numberedTestB l) = sub :=
        List.filter_eq_self.mpr hcode
      have hle : sub.length ≤
          ((jsLines text).filter (fun l => numberedTestA l || numberedTestB l)).length := by
        calc sub.length = (sub.filter (fun l => numberedTestA l || numberedTestB l)).length := by
              rw [hfil]
          _ ≤ _ := (hsub.filter _).length_le
      have hne : (jsLines text).isEmpty = false := by
        cases hjl : jsLines text with
        | nil =>
          rw [hjl] at hsub
          have hsn : sub = [] := List.sublist_nil.mp hsub
          rw [hsn] at hlen
          simp at hlen
        | cons a t => rfl
      simp only [isNumberedMarkdownList, hne, Bool.false_eq_true, if_false]
      exact decide_eq_true (le_trans hlen hle)
  · have hex : accepts Expect.markdownList "1. Do X\n2. Do Y\n3. Do Z" = true := by decide
    simp [callGeminiWithRetry, maxTries, withRetryLoop, hex]
